import Mathlib

/-!
Verification development for the `mm_mongo` document-mapping layer
(`mm_mongo/collection.py`, `mm_mongo/model.py`): a shallow embedding of the
document model, the Model↔document translation, the collection constructor,
and the CRUD method surface, together with theorems settling the spec's
claims about them.

Documents are modelled as insertion-ordered association lists of
string-keyed BSON-like values, matching Python `dict` semantics (unique
keys, insertion order preserved, assignment to an existing key keeps its
position, assignment to a fresh key appends).
-/

set_option autoImplicit false

namespace MmMongo

/-- BSON-like values stored in documents: null, integers, strings, booleans,
arrays and nested documents. -/
inductive Value where
  | vNull : Value
  | vInt (n : Int) : Value
  | vStr (s : String) : Value
  | vBool (b : Bool) : Value
  | vArr (xs : List Value) : Value
  | vDoc (fs : List (String × Value)) : Value
  deriving Repr, Inhabited

/-- A document: an insertion-ordered list of key/value pairs (Python `dict`). -/
abbrev Doc := List (String × Value)

/-- Python `d[k]`-style lookup: the value at key `k`, if present. -/
def lookupDoc (k : String) : Doc → Option Value
  | [] => none
  | (k', v) :: rest => if k' = k then some v else lookupDoc k rest

/-- Python `del d[k]` / `d.pop(k)` effect on the mapping: remove key `k`. -/
def removeKey (k : String) (d : Doc) : Doc :=
  d.filter (fun kv => kv.1 ≠ k)

/-- Python `d[k] = v`: overwrite in place if `k` is present, else append. -/
def dictSet (k : String) (v : Value) (d : Doc) : Doc :=
  if d.any (fun kv => kv.1 = k) then
    d.map (fun kv => if kv.1 = k then (k, v) else kv)
  else
    d ++ [(k, v)]

/-- A `MongoModel` instance: the mandatory identifier field `id` plus the
subclass's remaining fields, in declaration order (`model.py`,
`class MongoModel[ID](BaseModel): id: ID`). -/
structure MModel where
  id : Value
  fields : Doc
  deriving Repr

/-- Pydantic `model_dump()` on a `MongoModel`: the `id` field first (it is
declared first on the base class), then the subclass fields. No renaming
happens here. -/
def model_dump (m : MModel) : Doc :=
  ("id", m.id) :: m.fields

/-- Serializer `MongoModel.to_doc` (`model.py` lines 26–31): start from `model_dump()`;
if `doc["id"] is not None` set `doc["_id"] = doc["id"]`; then `del doc["id"]`. -/
def to_doc (m : MModel) : Doc :=
  let doc := model_dump m
  let doc := match lookupDoc "id" doc with
    | some Value.vNull => doc
    | some v => dictSet "_id" v doc
    | none => doc
  removeKey "id" doc

/-! ### Comma splitting (Python `str.split(",")` semantics) -/

/-- Split a character list at every comma; `"".split(",")` yields `[""]`,
matching Python. -/
def splitCommaChars : List Char → List (List Char)
  | [] => [[]]
  | c :: rest =>
    if c = ',' then [] :: splitCommaChars rest
    else
      match splitCommaChars rest with
      | [] => [[c]]
      | t :: ts => (c :: t) :: ts

/-- Python `s.split(",")`. -/
def splitComma (s : String) : List String :=
  (splitCommaChars s.data).map (fun cs => ⟨cs⟩)

/-- Join character-list tokens with commas (inverse of splitting, used to
state round-trip theorems). -/
def joinCommaChars : List (List Char) → List Char
  | [] => []
  | [t] => t
  | t :: ts => t ++ ',' :: joinCommaChars ts

/-- Join string tokens with commas. -/
def joinComma (ts : List String) : String :=
  ⟨joinCommaChars (ts.map String.data)⟩

/-! ### Spec-modelled utility helpers

The module `mm_mongo/utils.py` that `collection.py` imports
(`parse_indexes`, `parse_sort`, and the exported `mongo_query`) is absent
from the source snapshot; the definitions below are modelled from the
specification's grammar and helper descriptions (and agree with the
repository's own tests in `tests/test_utils.py`). -/

/-- Remove leading and trailing space characters (Python `str.strip()` on
the space-separated tokens these parsers see). -/
def stripChars (cs : List Char) : List Char :=
  ((cs.dropWhile (fun c => c = ' ')).reverse.dropWhile (fun c => c = ' ')).reverse

/-- Python `s.strip()` restricted to spaces. -/
def pyStrip (s : String) : String :=
  ⟨stripChars s.data⟩

/-- Python `s.startswith(c)` for a single character. -/
def pyStartsWith (c : Char) (s : String) : Bool :=
  match s.data with
  | [] => false
  | c' :: _ => c' = c

/-- Python `s[1:]`. -/
def pyDropOne (s : String) : String :=
  ⟨s.data.drop 1⟩

/-- Modelled from the spec: a single `field` / `-field` token denotes an
ascending / descending key; tokens are whitespace-trimmed (the repository's
tests accept `"a, b"`). -/
def parseSortToken (t : String) : String × Int :=
  let t := pyStrip t
  if pyStartsWith '-' t then (pyDropOne t, -1) else (t, 1)

/-- Modelled from the spec: the sort-spec parser (`parse_sort` of
`mm_mongo/utils.py`, absent from the snapshot). Comma-separated `field` /
`-field` tokens produce an ordered list of (field, direction) pairs;
`None`/empty input yields no sort. -/
def parse_sort : Option String → Option (List (String × Int))
  | none => none
  | some s => if s = "" then none else some ((splitComma s).map parseSortToken)

/-- A driver index declaration: ordered (field, direction) keys plus a
uniqueness flag. -/
structure IndexModel where
  keys : List (String × Int)
  unique : Bool
  deriving Repr, DecidableEq

/-- Modelled from the spec: the single index-spec parser
(`parse_str_index_model` of `mm_mongo/utils.py`, absent from the snapshot).
A leading `!` marks a uniqueness constraint; the remainder is a
comma-separated list of `field` / `-field` keys. -/
def parse_str_index_model (s : String) : IndexModel :=
  let u := pyStartsWith '!' s
  let rest := if u then pyDropOne s else s
  { keys := (splitComma rest).map parseSortToken, unique := u }

/-- Modelled from the spec: the index-list parser (`parse_indexes` of
`mm_mongo/utils.py`, absent from the snapshot). Splits the string on commas
into individual specs and parses each; empty or absent input yields an
empty index list. -/
def parse_indexes : Option String → List IndexModel
  | none => []
  | some s => if s = "" then [] else (splitComma s).map (fun t => parse_str_index_model (pyStrip t))

/-- Modelled from the spec: a value is "nil or an empty string/collection". -/
def isEmptyValue : Value → Bool
  | .vNull => true
  | .vStr s => s = ""
  | .vArr xs => xs.isEmpty
  | .vDoc fs => fs.isEmpty
  | _ => false

/-- Modelled from the spec: the query-builder helper (`mongo_query` of
`mm_mongo/utils.py`, absent from the snapshot). Keeps exactly the named
fields whose value is neither nil nor an empty string/collection. -/
def mongo_query (kwargs : Doc) : Doc :=
  kwargs.filter (fun kv => !isEmptyValue kv.2)

/-! ### Driver calls issued by `MongoCollection` methods -/

/-- The storage-driver primitive a `MongoCollection` method invokes, with
the arguments it passes (`collection.py`). -/
inductive DriverCall where
  | insertOne (doc : Doc)
  | insertMany (docs : List Doc) (ordered : Bool)
  | findOne (filterDoc : Doc)
  | findMany (filterDoc : Doc) (sort : Option (List (String × Int))) (limit : Int)
  | findOneAndUpdate (filterDoc upd : Doc) (returnAfter : Bool)
  | updateOne (filterDoc upd : Doc) (upsert : Bool)
  | updateMany (filterDoc upd : Doc) (upsert : Bool)
  deriving Repr

/-- Call issued by `insert_one` (`collection.py` lines 42–43): submits `doc.model_dump()`. -/
def insert_one_call (m : MModel) : DriverCall :=
  .insertOne (model_dump m)

/-- Call issued by `insert_many` (`collection.py` lines 45–46): submits
`[obj.model_dump() for obj in docs]`. -/
def insert_many_call (ms : List MModel) (ordered : Bool) : DriverCall :=
  .insertMany (ms.map model_dump) ordered

/-- Call issued by `get_or_none` / `get`: `find_one({"_id": id})`. -/
def get_call (id : Value) : DriverCall :=
  .findOne [("_id", id)]

/-- Call issued by `update_and_get`:
`find_one_and_update({"_id": id}, update, return_document=AFTER)`. -/
def update_and_get_call (id : Value) (upd : Doc) : DriverCall :=
  .findOneAndUpdate [("_id", id)] upd true

/-- Delegation in `set_and_get`: `return self.update_and_get(id, {"$set": update})`. -/
def set_and_get_call (id : Value) (upd : Doc) : DriverCall :=
  update_and_get_call id [("$set", .vDoc upd)]

/-- Call issued by `set`: `update_one({"_id": id}, {"$set": update}, upsert=upsert)`
directly on the driver collection. -/
def set_call (id : Value) (upd : Doc) (upsert : Bool) : DriverCall :=
  .updateOne [("_id", id)] [("$set", .vDoc upd)] upsert

/-- Call issued by the `update_one` method: forwards `update_one(query, update, upsert=upsert)`. -/
def update_one_call (query upd : Doc) (upsert : Bool) : DriverCall :=
  .updateOne query upd upsert

/-- Call issued by the `update_many` method: forwards `update_many(query, update, upsert=upsert)`. -/
def update_many_call (query upd : Doc) (upsert : Bool) : DriverCall :=
  .updateMany query upd upsert

/-- Call issued by `set_many`: `update_many(query, {"$set": update})` directly on the
driver collection (driver default `upsert=False`). -/
def set_many_call (query upd : Doc) : DriverCall :=
  .updateMany query [("$set", .vDoc upd)] false

/-! ### Response handling: document → Model translation and the read paths -/

/-- Errors a collection method can raise: the not-found error (which stores
the requested identifier, `MongoNotFoundError.__init__`), a missing-key
error from `doc.pop("_id")`, or a Model construction (validation) failure. -/
inductive MongoErr (I : Type) where
  | notFound (id : I)
  | keyError (k : String)
  | constructionError (msg : String)
  deriving Repr, DecidableEq

/-- Translation `_to_model` (`collection.py` lines 112–114): `doc["id"] = doc.pop("_id")`
then `self.model_class(**doc)`. `construct` is the Model constructor, which
may fail (pydantic validation); its failure propagates. -/
def toModel {M I : Type} (construct : Doc → Except String M) (doc : Doc) :
    Except (MongoErr I) M :=
  match lookupDoc "_id" doc with
  | none => .error (.keyError "_id")
  | some v =>
    match construct (dictSet "id" v (removeKey "_id" doc)) with
    | .ok m => .ok m
    | .error e => .error (.constructionError e)

/-- Response handling of `get_or_none` (`collection.py` lines 48–51):
`if res: return self._to_model(res)`, falling through to `None` when the
driver result is falsy (`None` or an empty mapping). -/
def get_or_none {M I : Type} (construct : Doc → Except String M) (res : Option Doc) :
    Except (MongoErr I) (Option M) :=
  match res with
  | none => .ok none
  | some d =>
    if d.isEmpty then .ok none
    else
      match toModel (I := I) construct d with
      | .ok m => .ok (some m)
      | .error e => .error e

/-- Response handling of `get` (`collection.py` lines 53–57): `res = self.get_or_none(id)`;
`if not res: raise MongoNotFoundError(id)`. -/
def get {M I : Type} (construct : Doc → Except String M) (id : I) (res : Option Doc) :
    Except (MongoErr I) M :=
  match get_or_none construct res with
  | .error e => .error e
  | .ok none => .error (.notFound id)
  | .ok (some m) => .ok m

/-- Response handling of `find` (`collection.py` lines 59–60): a list comprehension applying
`_to_model` to every returned document left to right; the first failure
propagates. -/
def find {M I : Type} (construct : Doc → Except String M) :
    List Doc → Except (MongoErr I) (List M)
  | [] => .ok []
  | d :: ds =>
    match toModel construct d with
    | .error e => .error e
    | .ok m =>
      match find construct ds with
      | .error e => .error e
      | .ok ms => .ok (m :: ms)

/-- Response handling of `find_one` (`collection.py` lines 62–65): same falsy
check as `get_or_none`. -/
def find_one {M I : Type} (construct : Doc → Except String M) (res : Option Doc) :
    Except (MongoErr I) (Option M) :=
  match res with
  | none => .ok none
  | some d =>
    if d.isEmpty then .ok none
    else
      match toModel (I := I) construct d with
      | .ok m => .ok (some m)
      | .error e => .error e

/-- Response handling of `update_and_get` (`collection.py` lines 67–71):
`if res: return self._to_model(res)`; `raise MongoNotFoundError(id)`. -/
def update_and_get {M I : Type} (construct : Doc → Except String M) (id : I)
    (res : Option Doc) : Except (MongoErr I) M :=
  match res with
  | none => .error (.notFound id)
  | some d =>
    if d.isEmpty then .error (.notFound id)
    else toModel construct d

/-- Response handling of `set_and_get` (`collection.py` lines 73–74): delegates to
`update_and_get`; its response handling is therefore the same function. -/
def set_and_get {M I : Type} (construct : Doc → Except String M) (id : I)
    (res : Option Doc) : Except (MongoErr I) M :=
  update_and_get construct id res

/-- The driver's `find_one({"_id": id})` over a store of identifier-addressed
document bodies: the first matching entry is returned with its `_id` field
prepended (a stored document always carries its primary key). -/
def findOneById {I : Type} [DecidableEq I] (enc : I → Value) (id : I)
    (store : List (I × Doc)) : Option Doc :=
  match store.find? (fun p => p.1 = id) with
  | some p => some (("_id", enc p.1) :: p.2)
  | none => none

/-! ### Collection construction (`MongoCollection.__init__`) -/

/-- Side effects `__init__` performs against the database, in order. -/
inductive InitEffect where
  | getCollection (name : String)
  | createIndexes (idx : List IndexModel)
  | command (cmd : Doc)
  | createCollection (name : String) (validator : Doc)
  deriving Repr

/-- Errors `__init__` can raise: `ValueError("empty collection name")` or
`RuntimeError("can't set schema validator")`. -/
inductive InitError where
  | emptyCollectionName
  | validatorNotOk
  deriving Repr, DecidableEq

/-- Python truthiness of `model_class.__indexes__` (a list or a compact
string; the default `[]` and `""` are falsy). The compact-string form is
modelled. -/
def truthyIndexes : Option String → Bool
  | none => false
  | some s => s ≠ ""

/-- Constructor `MongoCollection.__init__` (`collection.py` lines 22–40): raise on an
empty collection name before touching the database; bind the collection;
create declared indexes; then, when a (truthy) validator is declared, either
issue the `collMod` command against an existing collection — raising
`RuntimeError` when `"ok" not in res` — or create the collection with the
validator attached. Returns the effects performed and the error raised, if
any. `cmdRes` is the driver's response to the `collMod` command. -/
def initCollection (name : String) (indexes : Option String) (validator : Option Doc)
    (existing : List String) (cmdRes : Doc) : List InitEffect × Option InitError :=
  if name = "" then ([], some .emptyCollectionName)
  else
    let effs := [InitEffect.getCollection name]
    let effs := if truthyIndexes indexes then effs ++ [.createIndexes (parse_indexes indexes)] else effs
    match validator with
    | none => (effs, none)
    | some v =>
      if v.isEmpty then (effs, none)
      else if name ∈ existing then
        let effs := effs ++ [.command [("collMod", .vStr name), ("validator", .vDoc v)]]
        if (lookupDoc "ok" cmdRes).isSome then (effs, none)
        else (effs, some .validatorNotOk)
      else (effs ++ [.createCollection name v], none)

/-- Python truthiness of a BSON-like value. -/
def truthyValue : Value → Bool
  | .vNull => false
  | .vInt n => n ≠ 0
  | .vStr s => s ≠ ""
  | .vBool b => b
  | .vArr xs => !xs.isEmpty
  | .vDoc fs => !fs.isEmpty

/-- Follows the spec's words (for comparison with the code): a command
response "reports success" when its `ok` field is present and truthy — a
response such as `{"ok": 0}` reports failure, not success. -/
def spec_commandReportsSuccess (res : Doc) : Bool :=
  match lookupDoc "ok" res with
  | some v => truthyValue v
  | none => false

/-! ### Lemmas about comma splitting -/

theorem splitCommaChars_ne_nil (cs : List Char) : splitCommaChars cs ≠ [] := by
  induction cs with
  | nil => simp [splitCommaChars]
  | cons c rest ih =>
    simp only [splitCommaChars]
    split
    · simp
    · cases h : splitCommaChars rest with
      | nil => simp
      | cons t ts => simp

theorem splitCommaChars_append_comma (t rest : List Char) (h : ',' ∉ t) :
    splitCommaChars (t ++ ',' :: rest) = t :: splitCommaChars rest := by
  induction t with
  | nil => simp [splitCommaChars]
  | cons c t ih =>
    have hc : ¬c = ',' := by
      intro e
      exact h (e ▸ List.mem_cons_self c t)
    have h' : ',' ∉ t := fun m => h (List.mem_cons_of_mem _ m)
    simp only [List.cons_append, splitCommaChars, if_neg hc, List.append_eq]
    rw [ih h']

theorem splitCommaChars_no_comma (t : List Char) (h : ',' ∉ t) :
    splitCommaChars t = [t] := by
  induction t with
  | nil => simp [splitCommaChars]
  | cons c t ih =>
    have hc : ¬c = ',' := by
      intro e
      exact h (e ▸ List.mem_cons_self c t)
    have h' : ',' ∉ t := fun m => h (List.mem_cons_of_mem _ m)
    simp only [splitCommaChars, if_neg hc, ih h']

theorem splitCommaChars_join (ts : List (List Char)) (hne : ts ≠ [])
    (h : ∀ t ∈ ts, ',' ∉ t) : splitCommaChars (joinCommaChars ts) = ts := by
  induction ts with
  | nil => exact absurd rfl hne
  | cons t ts ih =>
    cases ts with
    | nil =>
      simp only [joinCommaChars]
      exact splitCommaChars_no_comma t (h t (List.mem_cons_self t []))
    | cons t' ts' =>
      have step : joinCommaChars (t :: t' :: ts') = t ++ ',' :: joinCommaChars (t' :: ts') := rfl
      rw [step, splitCommaChars_append_comma t _ (h t (List.mem_cons_self t _)),
        ih (by simp) (fun x hx => h x (List.mem_cons_of_mem _ hx))]

theorem splitComma_joinComma (ts : List String) (hne : ts ≠ [])
    (h : ∀ t ∈ ts, ',' ∉ t.data) : splitComma (joinComma ts) = ts := by
  unfold splitComma joinComma
  have hmapne : ts.map String.data ≠ [] := by
    intro e
    exact hne (List.map_eq_nil_iff.mp e)
  have hmem : ∀ u ∈ ts.map String.data, ',' ∉ u := by
    intro u hu
    obtain ⟨s, hs, rfl⟩ := List.mem_map.mp hu
    exact h s hs
  have hdata : (⟨joinCommaChars (ts.map String.data)⟩ : String).data =
      joinCommaChars (ts.map String.data) := rfl
  rw [hdata, splitCommaChars_join (ts.map String.data) hmapne hmem, List.map_map]
  have : (fun cs => (⟨cs⟩ : String)) ∘ String.data = id := by
    funext s
    rfl
  rw [this, List.map_id]

/-! ### Claim C6: sort-spec parsing -/

/-- C6: for every sort-spec string, parsing yields the ordered (field,
direction) pairs of its comma-separated tokens, a leading `-` meaning
descending and its absence ascending; nil or empty input yields no sort. -/
theorem parse_sort_spec :
    parse_sort none = none ∧
    parse_sort (some "") = none ∧
    (∀ ts : List String, (∀ t ∈ ts, ',' ∉ t.data) → joinComma ts ≠ "" → ts ≠ [] →
      parse_sort (some (joinComma ts)) = some (ts.map parseSortToken)) ∧
    (∀ f : String, pyStrip f = f →
      (pyStartsWith '-' f = true → parseSortToken f = (pyDropOne f, -1)) ∧
      (pyStartsWith '-' f = false → parseSortToken f = (f, 1))) := by
  refine ⟨rfl, rfl, ?_, ?_⟩
  · intro ts hcomma hne hnil
    simp only [parse_sort, if_neg hne, splitComma_joinComma ts hnil hcomma]
  · intro f htrim
    constructor
    · intro hsw
      simp only [parseSortToken, htrim, hsw, if_true]
    · intro hsw
      simp only [parseSortToken, htrim, hsw, Bool.false_eq_true, if_false]

/-- Witness for C6 at the spec's example: `"a,-b"` parses to
`[(a, ascending), (b, descending)]`. -/
theorem parse_sort_spec_witness :
    joinComma ["a", "-b"] = "a,-b" ∧
    parse_sort (some "a,-b") = some [("a", (1 : Int)), ("b", -1)] := by
  have h := parse_sort_spec.2.2.1 ["a", "-b"] (by decide) (by decide) (by decide)
  refine ⟨by decide, ?_⟩
  have hj : joinComma ["a", "-b"] = "a,-b" := by decide
  rw [hj] at h
  rw [h]
  decide

/-! ### Claim C5: index-spec parsing -/

/-- C5 counterexample: the comma-splitting index parser does not yield a
single unique compound index for `"!a,-b"`; it yields two separate indexes
(a unique ascending index on `a`, and a descending index on `b`). -/
theorem parse_indexes_compound_counterexample :
    parse_indexes (some "!a,-b") =
      [{ keys := [("a", 1)], unique := true }, { keys := [("b", -1)], unique := false }] ∧
    parse_indexes (some "!a,-b") ≠ [{ keys := [("a", 1), ("b", -1)], unique := true }] := by
  constructor
  · decide
  · decide

/-- C5 amended: the index-list parser splits on commas into individual
specs (so `"!a,-b"` yields two indexes), a leading `!` on a spec marks
uniqueness and `-field` keys are descending; the unique compound reading of
`"!a,-b"` belongs to the single-spec parser; empty or absent input yields an
empty index list. -/
theorem parse_indexes_amended :
    parse_indexes none = [] ∧
    parse_indexes (some "") = [] ∧
    (∀ ts : List String, (∀ t ∈ ts, ',' ∉ t.data) → joinComma ts ≠ "" → ts ≠ [] →
      parse_indexes (some (joinComma ts)) = ts.map (fun t => parse_str_index_model (pyStrip t))) ∧
    parse_str_index_model "!a,-b" = { keys := [("a", 1), ("b", -1)], unique := true } ∧
    (∀ s : String, (parse_str_index_model s).unique = pyStartsWith '!' s) := by
  refine ⟨rfl, rfl, ?_, by decide, fun s => rfl⟩
  intro ts hcomma hne hnil
  simp only [parse_indexes, if_neg hne, splitComma_joinComma ts hnil hcomma]

/-- Witness for C5's amended claim at the counterexample input: joining
`"!a"` and `"-b"` gives `"!a,-b"`, which parses to two indexes. -/
theorem parse_indexes_amended_witness :
    joinComma ["!a", "-b"] = "!a,-b" ∧
    parse_indexes (some "!a,-b") =
      [{ keys := [("a", 1)], unique := true }, { keys := [("b", -1)], unique := false }] := by
  have h := parse_indexes_amended.2.2.1 ["!a", "-b"] (by decide) (by decide) (by decide)
  have hj : joinComma ["!a", "-b"] = "!a,-b" := by decide
  rw [hj] at h
  rw [h]
  exact ⟨hj, by decide⟩

/-! ### Claim C7: the query-builder helper -/

/-- C7: the query-builder keeps exactly the fields whose value is neither
nil nor an empty string/collection; a falsy-but-meaningful value such as
integer 0 is retained. -/
theorem mongo_query_filters_empty :
    (∀ (kwargs : Doc) (k : String) (v : Value),
      (k, v) ∈ mongo_query kwargs ↔ ((k, v) ∈ kwargs ∧ isEmptyValue v = false)) ∧
    mongo_query [("a", .vInt 0)] = [("a", .vInt 0)] ∧
    mongo_query [("a", .vInt 1), ("b", .vNull), ("c", .vStr "")] = [("a", .vInt 1)] := by
  refine ⟨?_, rfl, rfl⟩
  intro kwargs k v
  simp [mongo_query, List.mem_filter]

/-! ### Lemmas about document (Python dict) operations -/

theorem lookupDoc_append (k : String) (d e : Doc) :
    lookupDoc k (d ++ e) =
      match lookupDoc k d with
      | some v => some v
      | none => lookupDoc k e := by
  induction d with
  | nil => simp [lookupDoc]
  | cons kv d ih =>
    obtain ⟨k', v'⟩ := kv
    by_cases hk : k' = k
    · simp [lookupDoc, hk]
    · simp [lookupDoc, hk, ih]

theorem lookupDoc_eq_none_of_not_any (k : String) (d : Doc)
    (h : d.any (fun kv => kv.1 = k) = false) : lookupDoc k d = none := by
  induction d with
  | nil => rfl
  | cons kv d ih =>
    obtain ⟨k', v'⟩ := kv
    simp only [List.any_cons, Bool.or_eq_false_iff] at h
    have hk : ¬k' = k := by simpa using h.1
    simp [lookupDoc, hk, ih h.2]

theorem lookupDoc_cons (k k' : String) (v : Value) (d : Doc) :
    lookupDoc k ((k', v) :: d) = if k' = k then some v else lookupDoc k d := rfl

theorem lookupDoc_map_set (k : String) (v : Value) (d : Doc)
    (hany : d.any (fun kv => kv.1 = k) = true) :
    lookupDoc k (d.map (fun kv => if kv.1 = k then (k, v) else kv)) = some v := by
  induction d with
  | nil => simp at hany
  | cons kv d ih =>
    obtain ⟨k', v'⟩ := kv
    by_cases hk : k' = k
    · subst hk
      simp [lookupDoc_cons]
    · simp only [List.any_cons, Bool.or_eq_true, decide_eq_true_eq] at hany
      rcases hany with h1 | h2
      · exact absurd h1 hk
      · simp only [List.map_cons, if_neg hk]
        rw [lookupDoc_cons, if_neg hk]
        exact ih h2

theorem lookupDoc_map_set_ne (k k' : String) (v : Value) (d : Doc) (h : k' ≠ k) :
    lookupDoc k' (d.map (fun kv => if kv.1 = k then (k, v) else kv)) = lookupDoc k' d := by
  induction d with
  | nil => rfl
  | cons kv d ih =>
    obtain ⟨k₀, v₀⟩ := kv
    by_cases hk : k₀ = k
    · subst hk
      have hne : ¬k₀ = k' := fun e => h e.symm
      simp [lookupDoc_cons, hne, ih]
    · simp only [List.map_cons, if_neg hk]
      rw [lookupDoc_cons, lookupDoc_cons]
      by_cases hk' : k₀ = k'
      · rw [if_pos hk', if_pos hk']
      · rw [if_neg hk', if_neg hk']
        exact ih

theorem lookupDoc_dictSet_self (k : String) (v : Value) (d : Doc) :
    lookupDoc k (dictSet k v d) = some v := by
  unfold dictSet
  split
  · rename_i hany
    exact lookupDoc_map_set k v d hany
  · rename_i hany
    simp only [Bool.not_eq_true] at hany
    rw [lookupDoc_append, lookupDoc_eq_none_of_not_any k d hany]
    simp [lookupDoc]

theorem lookupDoc_dictSet_ne (k k' : String) (v : Value) (d : Doc) (h : k' ≠ k) :
    lookupDoc k' (dictSet k v d) = lookupDoc k' d := by
  unfold dictSet
  split
  · exact lookupDoc_map_set_ne k k' v d h
  · rw [lookupDoc_append]
    cases hl : lookupDoc k' d with
    | some w => rfl
    | none =>
      rw [lookupDoc_cons, if_neg (fun e : k = k' => h (Eq.symm e))]
      rfl

theorem removeKey_cons_self (k : String) (v : Value) (d : Doc) :
    removeKey k ((k, v) :: d) = removeKey k d := by
  simp [removeKey]

theorem removeKey_cons_ne (k k' : String) (v : Value) (d : Doc) (h : ¬k' = k) :
    removeKey k ((k', v) :: d) = (k', v) :: removeKey k d := by
  simp [removeKey, h]

theorem lookupDoc_removeKey_self (k : String) (d : Doc) :
    lookupDoc k (removeKey k d) = none := by
  induction d with
  | nil => rfl
  | cons kv d ih =>
    obtain ⟨k', v'⟩ := kv
    by_cases hk : k' = k
    · subst hk
      rw [removeKey_cons_self]
      exact ih
    · rw [removeKey_cons_ne k k' v' d hk, lookupDoc_cons, if_neg hk]
      exact ih

theorem lookupDoc_removeKey_ne (k k' : String) (d : Doc) (h : k' ≠ k) :
    lookupDoc k' (removeKey k d) = lookupDoc k' d := by
  induction d with
  | nil => rfl
  | cons kv d ih =>
    obtain ⟨k₀, v₀⟩ := kv
    by_cases hk : k₀ = k
    · have hne : ¬k₀ = k' := fun e => h (e.symm.trans hk)
      subst hk
      rw [removeKey_cons_self, ih, lookupDoc_cons, if_neg hne]
    · rw [removeKey_cons_ne k k₀ v₀ d hk, lookupDoc_cons, lookupDoc_cons]
      by_cases hk' : k₀ = k'
      · rw [if_pos hk', if_pos hk']
      · rw [if_neg hk', if_neg hk']
        exact ih

theorem toModel_ne_notFound {M I : Type} (construct : Doc → Except String M)
    (d : Doc) (id : I) : toModel construct d ≠ .error (.notFound id) := by
  unfold toModel
  cases lookupDoc "_id" d with
  | none => simp
  | some v =>
    cases hc : construct (dictSet "id" v (removeKey "_id" d)) with
    | ok m => simp [hc]
    | error e => simp [hc]

/-! ### Claim C2: read-path translation -/

/-- C2: on every read path (get_or_none, get, find, find_one,
update_and_get, set_and_get), a storage document's `_id` field is renamed
to the identifier field `id` before the Model constructor runs — the
constructor receives the document with `id` bound to the stored primary
key, `_id` absent, and all other fields unchanged — and a Model
construction failure propagates to the caller. -/
theorem read_paths_rename_id {M I : Type} (construct : Doc → Except String M)
    (doc : Doc) (v : Value) (id : I)
    (h : lookupDoc "_id" doc = some v) :
    (lookupDoc "id" (dictSet "id" v (removeKey "_id" doc)) = some v ∧
     lookupDoc "_id" (dictSet "id" v (removeKey "_id" doc)) = none ∧
     ∀ k, k ≠ "id" → k ≠ "_id" →
       lookupDoc k (dictSet "id" v (removeKey "_id" doc)) = lookupDoc k doc) ∧
    (∀ m : M, construct (dictSet "id" v (removeKey "_id" doc)) = .ok m →
      get_or_none (I := I) construct (some doc) = .ok (some m) ∧
      find_one (I := I) construct (some doc) = .ok (some m) ∧
      get construct id (some doc) = .ok m ∧
      update_and_get construct id (some doc) = .ok m ∧
      set_and_get construct id (some doc) = .ok m ∧
      find (I := I) construct [doc] = .ok [m]) ∧
    (∀ e : String, construct (dictSet "id" v (removeKey "_id" doc)) = .error e →
      ∀ ds : List Doc,
      get_or_none (I := I) construct (some doc) = .error (.constructionError e) ∧
      find_one (I := I) construct (some doc) = .error (.constructionError e) ∧
      get construct id (some doc) = .error (.constructionError e) ∧
      update_and_get construct id (some doc) = .error (.constructionError e) ∧
      set_and_get construct id (some doc) = .error (.constructionError e) ∧
      find (I := I) construct (doc :: ds) = .error (.constructionError e)) := by
  have hne : doc.isEmpty = false := by
    cases doc with
    | nil => exact absurd h (by simp [lookupDoc])
    | cons kv rest => rfl
  refine ⟨⟨lookupDoc_dictSet_self "id" v (removeKey "_id" doc), ?_, ?_⟩, ?_, ?_⟩
  · rw [lookupDoc_dictSet_ne "id" "_id" v (removeKey "_id" doc) (by decide)]
    exact lookupDoc_removeKey_self "_id" doc
  · intro k hkid hkuid
    rw [lookupDoc_dictSet_ne "id" k v (removeKey "_id" doc) hkid,
      lookupDoc_removeKey_ne "_id" k doc hkuid]
  · intro m hm
    have htm : toModel (I := I) construct doc = .ok m := by
      unfold toModel
      rw [h]
      simp [hm]
    refine ⟨?_, ?_, ?_, ?_, ?_, ?_⟩
    · simp [get_or_none, hne, htm]
    · simp [find_one, hne, htm]
    · simp [get, get_or_none, hne, htm]
    · simp [update_and_get, hne, htm]
    · simp [set_and_get, update_and_get, hne, htm]
    · simp [find, htm]
  · intro e he ds
    have htm : toModel (I := I) construct doc = .error (.constructionError e) := by
      unfold toModel
      rw [h]
      simp [he]
    refine ⟨?_, ?_, ?_, ?_, ?_, ?_⟩
    · simp [get_or_none, hne, htm]
    · simp [find_one, hne, htm]
    · simp [get, get_or_none, hne, htm]
    · simp [update_and_get, hne, htm]
    · simp [set_and_get, update_and_get, hne, htm]
    · simp [find, htm]

/-- Witness for C2: a concrete stored document `{"_id": 5, "name": "n"}`
read through `get` with the identity constructor produces the renamed
document `{"name": "n", "id": 5}`. -/
theorem read_paths_rename_id_witness :
    lookupDoc "_id" [("_id", Value.vInt 5), ("name", Value.vStr "n")] = some (Value.vInt 5) ∧
    get (fun d => Except.ok d) (1 : Nat)
        (some [("_id", Value.vInt 5), ("name", Value.vStr "n")]) =
      Except.ok [("name", Value.vStr "n"), ("id", Value.vInt 5)] := by
  have h : lookupDoc "_id" [("_id", Value.vInt 5), ("name", Value.vStr "n")] =
      some (Value.vInt 5) := rfl
  have hc : (fun d => Except.ok (ε := String) d)
      (dictSet "id" (Value.vInt 5) (removeKey "_id" [("_id", Value.vInt 5), ("name", Value.vStr "n")])) =
      Except.ok [("name", Value.vStr "n"), ("id", Value.vInt 5)] := rfl
  have hmain := (read_paths_rename_id (fun d => Except.ok d)
      [("_id", Value.vInt 5), ("name", Value.vStr "n")] (Value.vInt 5) (1 : Nat) h).2.1
      [("name", Value.vStr "n"), ("id", Value.vInt 5)] hc
  exact ⟨h, hmain.2.2.1⟩

/-! ### Claim C3: not-found behavior of get / update_and_get / set_and_get -/

/-- C3: when no document matches the identifier, `get`, `update_and_get`
and `set_and_get` raise the not-found error carrying that identifier; when
a match exists they return the (post-update, for the update variants)
document as a Model. -/
theorem get_variants_not_found {M I : Type} [DecidableEq I] (enc : I → Value)
    (construct : Doc → Except String M) (id : I) (store : List (I × Doc))
    (hno : ∀ p ∈ store, p.1 ≠ id) :
    (get construct id (findOneById enc id store) = .error (.notFound id) ∧
     update_and_get construct id none = .error (.notFound id) ∧
     set_and_get construct id none = .error (.notFound id)) ∧
    (∀ (body : Doc) (m : M),
      store.find? (fun p => p.1 = id) = some (id, body) →
      construct (dictSet "id" (enc id) (removeKey "_id" (("_id", enc id) :: body))) = .ok m →
      get construct id (findOneById enc id store) = .ok m) ∧
    (∀ (d : Doc) (w : Value) (m : M),
      lookupDoc "_id" d = some w →
      construct (dictSet "id" w (removeKey "_id" d)) = .ok m →
      update_and_get construct id (some d) = .ok m ∧
      set_and_get construct id (some d) = .ok m) := by
  have hfind : store.find? (fun p => p.1 = id) = none := by
    rw [List.find?_eq_none]
    intro p hp
    simpa using hno p hp
  refine ⟨⟨?_, rfl, rfl⟩, ?_, ?_⟩
  · simp [findOneById, hfind, get, get_or_none]
  · intro body m hfound hc
    have hres : findOneById enc id store = some (("_id", enc id) :: body) := by
      simp [findOneById, hfound]
    have htm : toModel (I := I) construct (("_id", enc id) :: body) = .ok m := by
      unfold toModel
      rw [show lookupDoc "_id" (("_id", enc id) :: body) = some (enc id) from rfl]
      simp [hc]
    rw [hres]
    simp [get, get_or_none, htm]
  · intro d w m hw hc
    have hne : d.isEmpty = false := by
      cases d with
      | nil => exact absurd hw (by simp [lookupDoc])
      | cons kv rest => rfl
    have htm : toModel (I := I) construct d = .ok m := by
      unfold toModel
      rw [hw]
      simp [hc]
    constructor
    · simp [update_and_get, hne, htm]
    · simp [set_and_get, update_and_get, hne, htm]

/-- Witness for C3: an empty store reports not-found for identifier 1, and
the error carries that identifier. -/
theorem get_variants_not_found_witness :
    (∀ p ∈ ([] : List (Nat × Doc)), p.1 ≠ 1) ∧
    get (fun d => Except.ok d) 1 (findOneById (fun n => Value.vInt n) 1 []) =
      Except.error (.notFound 1) := by
  have hno : ∀ p ∈ ([] : List (Nat × Doc)), p.1 ≠ 1 := by simp
  exact ⟨hno, (get_variants_not_found (M := Doc) (I := Nat) (fun n => Value.vInt n)
    (fun d => Except.ok d) 1 ([] : List (Nat × Doc)) hno).1.1⟩

/-! ### Claim C10: falsy driver results are reported as not found -/

/-- C10: `get_or_none` returns `None` and `get` raises not-found exactly
when the driver's lookup result is falsy (`None` or an empty mapping); in
particular an empty returned document is treated as not found by every
single-document read path even though a document was returned. -/
theorem falsy_result_not_found {M I : Type} (construct : Doc → Except String M) (id : I) :
    (∀ res : Option Doc,
      (get_or_none (I := I) construct res = .ok none ↔ (res = none ∨ res = some [])) ∧
      (get construct id res = .error (.notFound id) ↔ (res = none ∨ res = some []))) ∧
    find_one (I := I) construct (some []) = .ok none ∧
    update_and_get construct id (some []) = .error (.notFound id) ∧
    set_and_get construct id (some []) = .error (.notFound id) := by
  refine ⟨?_, rfl, rfl, rfl⟩
  intro res
  match res with
  | none => simp [get_or_none, get]
  | some [] => simp [get_or_none, get]
  | some (kv :: rest) =>
    cases htm : toModel (I := I) construct (kv :: rest) with
    | ok m =>
      constructor
      · simp [get_or_none, htm]
      · simp [get, get_or_none, htm]
    | error e =>
      have hnotf := toModel_ne_notFound construct (kv :: rest) id
      rw [htm] at hnotf
      constructor
      · simp [get_or_none, htm]
      · simp only [get, get_or_none, htm]
        constructor
        · intro he
          exact absurd he hnotf
        · intro hor
          rcases hor with h1 | h2
          · exact absurd h1 (by simp)
          · exact absurd (Option.some.inj h2) (by simp)

/-! ### Claim C1: the write path submits `model_dump()`, not `to_doc()` -/

/-- C1 (code bug): `insert_one` and `insert_many` submit
`doc.model_dump()`, whose identifier field is still named `id` and which
contains no `_id` field — the rename that `MongoModel.to_doc` implements
(and that the repository's own `test_insert_one` relies on via
`res.inserted_id == 1`) is never applied; with an unset identifier the
submitted document still carries `"id": None` instead of omitting it. -/
theorem insert_submits_model_dump :
    insert_one_call ⟨Value.vInt 1, [("name", Value.vStr "n1")]⟩ =
      .insertOne [("id", Value.vInt 1), ("name", Value.vStr "n1")] ∧
    lookupDoc "_id" [("id", Value.vInt 1), ("name", Value.vStr "n1")] = none ∧
    lookupDoc "id" [("id", Value.vInt 1), ("name", Value.vStr "n1")] = some (Value.vInt 1) ∧
    to_doc ⟨Value.vInt 1, [("name", Value.vStr "n1")]⟩ =
      [("name", Value.vStr "n1"), ("_id", Value.vInt 1)] ∧
    model_dump ⟨Value.vInt 1, [("name", Value.vStr "n1")]⟩ ≠
      to_doc ⟨Value.vInt 1, [("name", Value.vStr "n1")]⟩ ∧
    insert_many_call [⟨Value.vNull, [("name", Value.vStr "n2")]⟩] true =
      .insertMany [[("id", Value.vNull), ("name", Value.vStr "n2")]] true ∧
    to_doc ⟨Value.vNull, [("name", Value.vStr "n2")]⟩ = [("name", Value.vStr "n2")] := by
  refine ⟨rfl, rfl, rfl, rfl, ?_, rfl, rfl⟩
  intro hcontra
  have h1 : model_dump ⟨Value.vInt 1, [("name", Value.vStr "n1")]⟩ =
      [("id", Value.vInt 1), ("name", Value.vStr "n1")] := rfl
  have h2 : to_doc ⟨Value.vInt 1, [("name", Value.vStr "n1")]⟩ =
      [("name", Value.vStr "n1"), ("_id", Value.vInt 1)] := rfl
  rw [h1, h2] at hcontra
  have hh := (List.cons.inj hcontra).1
  have hk := congrArg Prod.fst hh
  exact absurd hk (by decide)

/-! ### Claim C8: "set" convenience variants wrap the update in $set -/

/-- C8: `set_and_get`, `set` and `set_many` equal the corresponding general
update operations with the update document wrapped in a `$set` operator,
both in the driver call they issue and (for `set_and_get`) in how the
response is handled. -/
theorem set_variants_wrap_update :
    (∀ (id : Value) (u : Doc),
      set_and_get_call id u = update_and_get_call id [("$set", Value.vDoc u)]) ∧
    (∀ (M I : Type) (construct : Doc → Except String M) (id : I) (res : Option Doc),
      set_and_get construct id res = update_and_get construct id res) ∧
    (∀ (id : Value) (u : Doc) (up : Bool),
      set_call id u up = update_one_call [("_id", id)] [("$set", Value.vDoc u)] up) ∧
    (∀ (q u : Doc), set_many_call q u = update_many_call q [("$set", Value.vDoc u)] false) :=
  ⟨fun _ _ => rfl, fun _ _ _ _ _ => rfl, fun _ _ _ => rfl, fun _ _ => rfl⟩

/-! ### Claim C9: empty collection name -/

/-- C9: an empty declared collection name makes construction raise the
configuration error before any storage collection is bound; a non-empty
name never raises that error. -/
theorem empty_collection_name_fails (indexes : Option String) (validator : Option Doc)
    (existing : List String) (cmdRes : Doc) :
    initCollection "" indexes validator existing cmdRes = ([], some .emptyCollectionName) ∧
    (∀ name : String, name ≠ "" →
      (initCollection name indexes validator existing cmdRes).2 ≠ some .emptyCollectionName) := by
  constructor
  · rfl
  · intro name hname
    unfold initCollection
    rw [if_neg hname]
    cases validator with
    | none => simp
    | some v =>
      by_cases hv : v.isEmpty
      · simp [hv]
      · by_cases hex : name ∈ existing
        · by_cases hok : (lookupDoc "ok" cmdRes).isSome
          · simp [hv, hex, hok]
          · simp [hv, hex, hok]
        · simp [hv, hex]

/-- Witness for C9: a model with collection name `"data"` and no validator
constructs without the configuration error. -/
theorem empty_collection_name_fails_witness :
    initCollection "" none none [] [] = ([], some .emptyCollectionName) ∧
    (initCollection "data" none none [] []).2 ≠ some .emptyCollectionName := by
  refine ⟨(empty_collection_name_fails none none [] []).1, ?_⟩
  exact (empty_collection_name_fails none none [] []).2 "data" (by decide)

/-! ### Claim C4: validator handling at construction -/

/-- C4 counterexample: a `collMod` response of `{"ok": 0}` does not report
success, yet construction succeeds — the code only checks that the `ok` key
is present (`"ok" not in res`), not that it indicates success. -/
theorem validator_failure_response_counterexample :
    spec_commandReportsSuccess [("ok", Value.vInt 0)] = false ∧
    (initCollection "data" none (some [("x", Value.vInt 1)]) ["data"] [("ok", Value.vInt 0)]).2 =
      none ∧
    (initCollection "data" none (some [("x", Value.vInt 1)]) ["data"] [("ok", Value.vInt 0)]).1 =
      [.getCollection "data",
       .command [("collMod", Value.vStr "data"), ("validator", Value.vDoc [("x", Value.vInt 1)])]] :=
  ⟨rfl, rfl, rfl⟩

/-- C4 amended: with a truthy validator declared, if the collection exists
the `collMod` command is issued and construction fails exactly when the
response lacks the success-indicator key `ok` (a response carrying `ok`
with a failure value is accepted); if the collection does not exist it is
created with the validator attached. -/
theorem validator_modify_checks_ok_key (name : String) (indexes : Option String)
    (v : Doc) (existing : List String) (cmdRes : Doc)
    (hname : name ≠ "") (hv : v.isEmpty = false) :
    (name ∈ existing →
      (initCollection name indexes (some v) existing cmdRes).1 =
        (initCollection name indexes none existing cmdRes).1 ++
          [.command [("collMod", Value.vStr name), ("validator", Value.vDoc v)]] ∧
      ((initCollection name indexes (some v) existing cmdRes).2 = some .validatorNotOk ↔
        lookupDoc "ok" cmdRes = none)) ∧
    (name ∉ existing →
      (initCollection name indexes (some v) existing cmdRes).1 =
        (initCollection name indexes none existing cmdRes).1 ++ [.createCollection name v] ∧
      (initCollection name indexes (some v) existing cmdRes).2 = none) := by
  constructor
  · intro hex
    constructor
    · by_cases hok : (lookupDoc "ok" cmdRes).isSome
      · simp [initCollection, hname, hv, hex, hok]
      · simp [initCollection, hname, hv, hex, hok]
    · cases hlok : lookupDoc "ok" cmdRes with
      | some w => simp [initCollection, hname, hv, hex, hlok]
      | none => simp [initCollection, hname, hv, hex, hlok]
  · intro hex
    constructor
    · simp [initCollection, hname, hv, hex]
    · simp [initCollection, hname, hv, hex]

/-- Witness for C4's amended claim: collection `"data"` exists, the
response `{"ok": 1}` carries the `ok` key, so construction succeeds. -/
theorem validator_modify_checks_ok_key_witness :
    ("data" : String) ≠ "" ∧
    ([("x", Value.vInt 1)] : Doc).isEmpty = false ∧
    ((initCollection "data" none (some [("x", Value.vInt 1)]) ["data"] [("ok", Value.vInt 1)]).2 =
        some .validatorNotOk ↔
      lookupDoc "ok" [("ok", Value.vInt 1)] = none) := by
  have h := (validator_modify_checks_ok_key "data" none [("x", Value.vInt 1)] ["data"]
    [("ok", Value.vInt 1)] (by decide) rfl).1 (by simp)
  exact ⟨by decide, rfl, h.2⟩

end MmMongo
